import Mathlib

/-!
Shallow embedding of the dynamic vector library from `src/src/vector.c`
(`malib`).  A C `Vector` owns a heap buffer of `capacity` doubles of which
the first `size` are meaningful.  The buffer is modelled as
`Option (List ℚ)` (`none` is the `NULL` pointer, otherwise the list holds
the whole allocation, one entry per allocated slot).  Doubles are modelled
as exact rationals: all claims settled here concern control flow, memory
management and exact element identities, never rounding.  Allocation
failure is modelled by an explicit `allocOk : Bool` argument consulted at
each `malloc`/`calloc`/`realloc` site, and the fresh uninitialized cells a
`realloc` can expose are modelled by an arbitrary `junk` value.
-/

namespace Malib

/-- Error codes of `VectorError` in `src/include/vector.h`. -/
inductive VectorError where
  | VECTOR_SUCCESS
  | VECTOR_ERROR_NULL
  | VECTOR_ERROR_MEM
  | VECTOR_ERROR_INIT
  | VECTOR_ERROR_SIZE
  | VECTOR_ERROR_MATH
  | VECTOR_ERROR_INDEX
  | VECTOR_ERROR_INVALID_ARG
  | VECTOR_ERROR_READONLY
  deriving DecidableEq

open VectorError

/-- The `Vector` struct: `elements` buffer (`none` = `NULL`), logical
`size`, allocated `capacity`. -/
structure Vector where
  elements : Option (List ℚ)
  size : Nat
  capacity : Nat
  deriving DecidableEq

def VECTOR_MIN_CAPACITY : Nat := 16

def VECTOR_GROWTH_FACTOR : Nat := 2

/-- Model of `vector_valid`: non-null vector with non-null buffer (the vector
pointer itself is non-null by construction in this embedding). -/
def vector_valid (v : Vector) : Bool :=
  v.elements.isSome

/-- Model of `calculate_new_capacity` from vector.c. -/
def calculate_new_capacity (current : Nat) : Nat :=
  if current < VECTOR_MIN_CAPACITY then VECTOR_MIN_CAPACITY
  else current * VECTOR_GROWTH_FACTOR

/-- Model of `realloc(buf, newCap * sizeof(double))`: the prefix of the old
allocation is preserved, fresh cells hold arbitrary junk. -/
def reallocBuf (e : Option (List ℚ)) (newCap : Nat) (junk : ℚ) : List ℚ :=
  ((e.getD []) ++ List.replicate newCap junk).take newCap

/-- Model of `memset(buf + lo, 0, (hi - lo) * sizeof(double))`: zero the slots in
`[lo, hi)`. -/
def memsetZeroRange (buf : List ℚ) (lo hi : Nat) : List ℚ :=
  buf.take lo ++ List.replicate (hi - lo) 0 ++ buf.drop hi

/-- Model of `vector_create`: `mallocOk`/`callocOk` model the two allocation
sites.  On failure nothing is produced. -/
def vector_create (size : Nat) (mallocOk callocOk : Bool) :
    VectorError × Option Vector :=
  if ¬mallocOk then (VECTOR_ERROR_MEM, none)
  else if size = 0 then
    (VECTOR_SUCCESS, some { elements := none, size := 0, capacity := 0 })
  else if callocOk then
    (VECTOR_SUCCESS,
      some { elements := some (List.replicate size 0), size := size, capacity := size })
  else (VECTOR_ERROR_MEM, none)

/-- Model of `vector_init`: reinitialize in place; the `calloc` happens before the
old buffer is freed, so on failure the vector is untouched. -/
def vector_init (v : Vector) (size : Nat) (allocOk : Bool) :
    VectorError × Vector :=
  if 0 < size then
    if allocOk then
      (VECTOR_SUCCESS,
        { elements := some (List.replicate size 0), size := size, capacity := size })
    else (VECTOR_ERROR_MEM, v)
  else
    (VECTOR_SUCCESS, { elements := none, size := size, capacity := size })

/-- Model of `vector_resize` from vector.c. -/
def vector_resize (v : Vector) (size : Nat) (allocOk : Bool) (junk : ℚ) :
    VectorError × Vector :=
  if size ≤ v.capacity then (VECTOR_SUCCESS, { v with size := size })
  else
    if allocOk then
      (VECTOR_SUCCESS,
        { elements := some
            (if v.size < size then
              memsetZeroRange (reallocBuf v.elements (calculate_new_capacity size) junk) v.size size
             else reallocBuf v.elements (calculate_new_capacity size) junk),
          size := size,
          capacity := calculate_new_capacity size })
    else (VECTOR_ERROR_MEM, v)

/-- Model of `vector_reserve` from vector.c. -/
def vector_reserve (v : Vector) (capacity : Nat) (allocOk : Bool) (junk : ℚ) :
    VectorError × Vector :=
  if capacity ≤ v.capacity then (VECTOR_SUCCESS, v)
  else
    if allocOk then
      (VECTOR_SUCCESS,
        { elements := some (reallocBuf v.elements capacity junk),
          size := v.size, capacity := capacity })
    else (VECTOR_ERROR_MEM, v)

/-- Model of `vector_shrink_to_fit` from vector.c. -/
def vector_shrink_to_fit (v : Vector) (allocOk : Bool) (junk : ℚ) :
    VectorError × Vector :=
  match v.elements with
  | none => (VECTOR_ERROR_INIT, v)
  | some buf =>
    if v.size = 0 then
      (VECTOR_SUCCESS, { elements := none, size := 0, capacity := 0 })
    else if v.size = v.capacity then (VECTOR_SUCCESS, v)
    else
      if allocOk then
        (VECTOR_SUCCESS,
          { elements := some (reallocBuf (some buf) v.size junk),
            size := v.size, capacity := v.size })
      else (VECTOR_ERROR_MEM, v)

/-- Model of `vector_get`: the second component is the value written through
`out_val` (`none` when the call fails and leaves `*out_val` untouched). -/
def vector_get (v : Vector) (index : Nat) : VectorError × Option ℚ :=
  if ¬vector_valid v then (VECTOR_ERROR_INIT, none)
  else if v.size ≤ index then (VECTOR_ERROR_INDEX, none)
  else (VECTOR_SUCCESS, some ((v.elements.getD []).getD index 0))

/-- Model of `vector_copy`: re-init `dest` to `src.size`, then `memcpy` the first
`src.size` elements. -/
def vector_copy (src dest : Vector) (allocOk : Bool) : VectorError × Vector :=
  if ¬vector_valid src then (VECTOR_ERROR_INIT, dest)
  else
    match vector_init dest src.size allocOk with
    | (VECTOR_SUCCESS, d) =>
      (VECTOR_SUCCESS,
        { d with elements :=
            match d.elements with
            | none => none
            | some _ => some ((src.elements.getD []).take src.size) })
    | r => r

/-- The comparison loop of `vector_equals`: `k` iterations remain,
current index is `i`.  Both exits of the C loop return
`VECTOR_SUCCESS`. -/
def vector_equals_loop : Nat → Nat → List ℚ → List ℚ → ℚ → VectorError
  | 0, _, _, _, _ => VECTOR_SUCCESS
  | k + 1, i, aL, bL, tol =>
    if tol < |aL.getD i 0 - bL.getD i 0| then VECTOR_SUCCESS
    else vector_equals_loop k (i + 1) aL bL tol

/-- Model of `vector_equals` from vector.c. -/
def vector_equals (a b : Vector) (tolerance : ℚ) : VectorError :=
  if ¬(vector_valid a ∧ vector_valid b) then VECTOR_ERROR_INIT
  else if a.size ≠ b.size then VECTOR_ERROR_SIZE
  else vector_equals_loop a.size 0 (a.elements.getD []) (b.elements.getD []) tolerance

/-- The division loop of `vector_div`: `k` iterations remain, current
index is `i`; the result buffer `r` is written in place and the loop
aborts with `VECTOR_ERROR_MATH` at the first zero divisor. -/
def vector_div_loop : Nat → Nat → List ℚ → List ℚ → List ℚ → VectorError × List ℚ
  | 0, _, _, _, r => (VECTOR_SUCCESS, r)
  | k + 1, i, aL, bL, r =>
    if bL.getD i 0 = 0 then (VECTOR_ERROR_MATH, r)
    else vector_div_loop k (i + 1) aL bL (r.set i (aL.getD i 0 / bL.getD i 0))

/-- Model of `vector_div` from vector.c. -/
def vector_div (a b result : Vector) : VectorError × Vector :=
  if ¬(vector_valid a ∧ vector_valid b ∧ vector_valid result) then
    (VECTOR_ERROR_INIT, result)
  else if ¬(a.size = b.size ∧ a.size = result.size) then
    (VECTOR_ERROR_SIZE, result)
  else
    match vector_div_loop a.size 0 (a.elements.getD []) (b.elements.getD [])
        (result.elements.getD []) with
    | (e, r) => (e, { result with elements := some r })

/-- Model of `vector_cross` from vector.c (unrolled 3-D cross product). -/
def vector_cross (a b result : Vector) : VectorError × Vector :=
  if ¬(vector_valid a ∧ vector_valid b ∧ vector_valid result) then
    (VECTOR_ERROR_INIT, result)
  else if ¬(a.size = 3 ∧ b.size = 3 ∧ result.size = 3) then
    (VECTOR_ERROR_SIZE, result)
  else
    (VECTOR_SUCCESS,
      { result with elements := some (
          (((result.elements.getD []).set 0
              ((a.elements.getD []).getD 1 0 * (b.elements.getD []).getD 2 0 -
               (a.elements.getD []).getD 2 0 * (b.elements.getD []).getD 1 0)).set 1
              ((a.elements.getD []).getD 2 0 * (b.elements.getD []).getD 0 0 -
               (a.elements.getD []).getD 0 0 * (b.elements.getD []).getD 2 0)).set 2
              ((a.elements.getD []).getD 0 0 * (b.elements.getD []).getD 1 0 -
               (a.elements.getD []).getD 1 0 * (b.elements.getD []).getD 0 0)) })

/-- Model of `vector_3d`: `vector_create(3)` followed by three element writes. -/
def vector_3d (x y z : ℚ) (mallocOk callocOk : Bool) : VectorError × Option Vector :=
  match vector_create 3 mallocOk callocOk with
  | (VECTOR_SUCCESS, some v) =>
    (VECTOR_SUCCESS,
      some { v with elements := some ((((v.elements.getD []).set 0 x).set 1 y).set 2 z) })
  | r => r

/-- One Kahan compensation step (`y`/`t` updates of vector_dot's loop
body). -/
def kahan_step (sum c x : ℚ) : ℚ × ℚ :=
  (sum + (x - c), ((sum + (x - c)) - sum) - (x - c))

/-- The summation loops of `vector_dot`: 4-way unrolled main loop while
at least four products remain, then the one-at-a-time remainder loop. -/
def kahan_main : List ℚ → ℚ → ℚ → ℚ × ℚ
  | x1 :: x2 :: x3 :: x4 :: rest, sum, c =>
    let s1 := kahan_step sum c x1
    let s2 := kahan_step s1.1 s1.2 x2
    let s3 := kahan_step s2.1 s2.2 x3
    let s4 := kahan_step s3.1 s3.2 x4
    kahan_main rest s4.1 s4.2
  | xs, sum, c => xs.foldl (fun s x => kahan_step s.1 s.2 x) (sum, c)

/-- Model of `vector_dot` from vector.c (Kahan-compensated dot product); the
second component is the value written through `result`. -/
def vector_dot (a b : Vector) : VectorError × Option ℚ :=
  if ¬(vector_valid a ∧ vector_valid b) then (VECTOR_ERROR_INIT, none)
  else if a.size ≠ b.size then (VECTOR_ERROR_SIZE, none)
  else
    (VECTOR_SUCCESS,
      some (kahan_main
        ((List.range a.size).map (fun i =>
          (a.elements.getD []).getD i 0 * (b.elements.getD []).getD i 0)) 0 0).1)

/-- One write of the lerp loops: `r[i] = (1-t)*a[i] + t*b[i]`. -/
def lerp_write (omt t : ℚ) (aL bL : List ℚ) (i : Nat) (r : List ℚ) : List ℚ :=
  r.set i (omt * aL.getD i 0 + t * bL.getD i 0)

/-- The loops of `vector_lerp`: 4-way unrolled main loop while at least
four indices remain, then the remainder loop; first argument is the
number of remaining indices, second the current index. -/
def lerp_go (omt t : ℚ) (aL bL : List ℚ) : Nat → Nat → List ℚ → List ℚ
  | k + 4, i, r =>
    lerp_go omt t aL bL k (i + 4)
      (lerp_write omt t aL bL (i + 3)
        (lerp_write omt t aL bL (i + 2)
          (lerp_write omt t aL bL (i + 1)
            (lerp_write omt t aL bL i r))))
  | k, i, r =>
    (List.range k).foldl (fun acc j => lerp_write omt t aL bL (i + j) acc) r

/-- Model of `vector_lerp` from vector.c. -/
def vector_lerp (a b : Vector) (t : ℚ) (result : Vector) : VectorError × Vector :=
  if ¬(vector_valid a ∧ vector_valid b ∧ vector_valid result) then
    (VECTOR_ERROR_INIT, result)
  else if ¬(a.size = b.size ∧ a.size = result.size) then
    (VECTOR_ERROR_SIZE, result)
  else
    (VECTOR_SUCCESS,
      { result with elements := some (
          lerp_go (1 - t) t (a.elements.getD []) (b.elements.getD [])
            a.size 0 (result.elements.getD [])) })

/-- The final interpolation loop of `vector_slerp`. -/
def slerp_write (a_scale b_scale : ℚ) (aL bL : List ℚ) (n : Nat) (r : List ℚ) : List ℚ :=
  (List.range n).foldl (fun acc i => acc.set i (a_scale * aL.getD i 0 + b_scale * bL.getD i 0)) r

/-- Body of `vector_slerp` after the argument checks and the dot-product
call: clamp, `acos`, near-parallel fallback to lerp, otherwise the
`sin`-weighted combination.  `acosQ`/`sinQ` are the mathematical `acos`
and `sin` of libm, kept abstract (their numerics carry no weight in any
claim settled here). -/
def slerp_core (acosQ sinQ : ℚ → ℚ) (a b : Vector) (t : ℚ) (result : Vector)
    (dotRaw : ℚ) : VectorError × Vector :=
  if |acosQ (max (-1) (min 1 dotRaw))| < 1 / 10000000000 then
    vector_lerp a b t result
  else
    (VECTOR_SUCCESS,
      { result with elements := some (
          slerp_write
            (sinQ ((1 - t) * acosQ (max (-1) (min 1 dotRaw))) /
              sinQ (acosQ (max (-1) (min 1 dotRaw))))
            (sinQ (t * acosQ (max (-1) (min 1 dotRaw))) /
              sinQ (acosQ (max (-1) (min 1 dotRaw))))
            (a.elements.getD []) (b.elements.getD []) a.size
            (result.elements.getD [])) })

/-- Model of `vector_slerp` from vector.c. -/
def vector_slerp (acosQ sinQ : ℚ → ℚ) (a b : Vector) (t : ℚ) (result : Vector) :
    VectorError × Vector :=
  if ¬(vector_valid a ∧ vector_valid b ∧ vector_valid result) then
    (VECTOR_ERROR_INIT, result)
  else if ¬(a.size = b.size ∧ a.size = result.size) then
    (VECTOR_ERROR_SIZE, result)
  else
    match vector_dot a b with
    | (VECTOR_SUCCESS, d) => slerp_core acosQ sinQ a b t result (d.getD 0)
    | (e, _) => (e, result)

/-- The invariant of claim C1: `capacity ≥ size` and
`elements == NULL ⇔ capacity == 0`. -/
def vector_inv (v : Vector) : Prop :=
  v.size ≤ v.capacity ∧ (v.elements = none ↔ v.capacity = 0)

instance (v : Vector) : Decidable (vector_inv v) := by
  unfold vector_inv
  infer_instance

/-- One capacity-management call of claim C1, with its allocation
outcome. -/
inductive CapOp where
  | resize (n : Nat) (allocOk : Bool) (junk : ℚ)
  | reserve (n : Nat) (allocOk : Bool) (junk : ℚ)
  | shrink (allocOk : Bool) (junk : ℚ)
  deriving DecidableEq

def applyCapOp (v : Vector) : CapOp → VectorError × Vector
  | .resize n ok j => vector_resize v n ok j
  | .reserve n ok j => vector_reserve v n ok j
  | .shrink ok j => vector_shrink_to_fit v ok j

/-- Run a sequence of capacity-management calls, recording the error code
and the vector state after each call. -/
def runCapOps (v : Vector) : List CapOp → List (VectorError × Vector)
  | [] => []
  | op :: ops =>
    applyCapOp v op :: runCapOps (applyCapOp v op).2 ops

/-! ### Concrete vectors used by the witnesses and counterexamples -/

def c1StartVector : Vector := { elements := none, size := 0, capacity := 0 }

def c1Ops : List CapOp :=
  [CapOp.resize 5 true 0, CapOp.reserve 20 true 0, CapOp.shrink true 0]

def c2Vector : Vector :=
  { elements := some (List.replicate 16 0), size := 16, capacity := 16 }

def c4Vector : Vector := { elements := some [1, 2], size := 2, capacity := 2 }

def c5Vector : Vector := { elements := some [1, 2], size := 1, capacity := 2 }

def c6A : Vector := { elements := some [1, 2], size := 2, capacity := 2 }

def c6BZero : Vector := { elements := some [0, 1], size := 2, capacity := 2 }

def c6BOne : Vector := { elements := some [1, 1], size := 2, capacity := 2 }

def c6R : Vector := { elements := some [9, 9], size := 2, capacity := 2 }

def c10A : Vector := { elements := some [1, 2, 3], size := 3, capacity := 3 }

def c10B : Vector := { elements := some [2, 0, 9], size := 3, capacity := 3 }

def c10R : Vector := { elements := some [7, 7, 7], size := 3, capacity := 3 }

def e100 : Vector := { elements := some [1, 0, 0], size := 3, capacity := 3 }

def e010 : Vector := { elements := some [0, 1, 0], size := 3, capacity := 3 }

def eCrossRes : Vector := { elements := some [0, 0, 0], size := 3, capacity := 3 }

def c8V : Vector := { elements := some [1], size := 1, capacity := 1 }

def c9Src : Vector := { elements := some [1, 2, 3], size := 0, capacity := 3 }

def c9A : Vector := { elements := some [5, 6], size := 2, capacity := 2 }

def c9B : Vector := { elements := some [100, -2], size := 2, capacity := 2 }

/-! ### Helper lemmas about the buffer combinators -/

theorem calculate_new_capacity_lower (n : Nat) :
    n ≤ calculate_new_capacity n ∧ 0 < calculate_new_capacity n := by
  unfold calculate_new_capacity VECTOR_MIN_CAPACITY VECTOR_GROWTH_FACTOR
  split <;> omega

theorem reallocBuf_length (e : Option (List ℚ)) (n : Nat) (j : ℚ) :
    (reallocBuf e n j).length = n := by
  simp [reallocBuf]

theorem reallocBuf_getD_lt (e : Option (List ℚ)) (n : Nat) (j : ℚ) (i : Nat)
    (h1 : i < (e.getD []).length) (h2 : i < n) :
    (reallocBuf e n j).getD i 0 = (e.getD []).getD i 0 := by
  simp only [reallocBuf, List.getD_eq_getElem?_getD]
  rw [List.getElem?_take_of_lt h2, List.getElem?_append_left h1]

theorem memsetZeroRange_length (buf : List ℚ) (lo hi : Nat)
    (h1 : lo ≤ hi) (h2 : hi ≤ buf.length) :
    (memsetZeroRange buf lo hi).length = buf.length := by
  simp [memsetZeroRange]
  omega

theorem memsetZeroRange_getD_lt (buf : List ℚ) (lo hi i : Nat)
    (h : i < lo) (h2 : lo ≤ buf.length) :
    (memsetZeroRange buf lo hi).getD i 0 = buf.getD i 0 := by
  simp only [memsetZeroRange, List.getD_eq_getElem?_getD]
  rw [List.append_assoc, List.getElem?_append_left (by simp; omega),
    List.getElem?_take_of_lt h]

theorem memsetZeroRange_getD_mid (buf : List ℚ) (lo hi i : Nat)
    (h1 : lo ≤ i) (h2 : i < hi) (h3 : lo ≤ buf.length) :
    (memsetZeroRange buf lo hi).getD i 0 = 0 := by
  simp only [memsetZeroRange, List.getD_eq_getElem?_getD]
  rw [List.append_assoc, List.getElem?_append_right (by simp; omega)]
  rw [List.getElem?_append_left (by simp; omega)]
  rw [List.getElem?_replicate_of_lt (by simp; omega)]
  rfl

theorem memsetZeroRange_getD_ge (buf : List ℚ) (lo hi i : Nat)
    (h1 : hi ≤ i) (h0 : lo ≤ hi) (h3 : lo ≤ buf.length) :
    (memsetZeroRange buf lo hi).getD i 0 = buf.getD i 0 := by
  simp only [memsetZeroRange, List.getD_eq_getElem?_getD]
  rw [List.append_assoc, List.getElem?_append_right (by simp; omega)]
  rw [List.getElem?_append_right (by simp; omega)]
  rw [List.getElem?_drop]
  congr 2
  simp
  omega

/-! ### C1: capacity invariant -/

theorem vector_inv_of_some (e : List ℚ) (s c : Nat) (h1 : s ≤ c) (h2 : 0 < c) :
    vector_inv { elements := some e, size := s, capacity := c } := by
  constructor
  · simpa using h1
  · constructor
    · intro h; simp at h
    · intro h; simp at h; omega

theorem vector_inv_empty : vector_inv { elements := none, size := 0, capacity := 0 } := by
  constructor <;> simp

theorem applyCapOp_preserves_inv (v : Vector) (op : CapOp)
    (hv : vector_inv v) (hs : (applyCapOp v op).1 = VECTOR_SUCCESS) :
    vector_inv (applyCapOp v op).2 := by
  obtain ⟨h1, h2⟩ := hv
  cases op with
  | resize n ok j =>
    simp only [applyCapOp, vector_resize] at hs ⊢
    by_cases hle : n ≤ v.capacity
    · simpa only [if_pos hle] using ⟨hle, h2⟩
    · simp only [if_neg hle] at hs ⊢
      cases ok with
      | false => simp at hs
      | true =>
        simp only [if_true]
        exact vector_inv_of_some _ _ _ (calculate_new_capacity_lower n).1
          (calculate_new_capacity_lower n).2
  | reserve n ok j =>
    simp only [applyCapOp, vector_reserve] at hs ⊢
    by_cases hle : n ≤ v.capacity
    · simpa only [if_pos hle] using ⟨h1, h2⟩
    · simp only [if_neg hle] at hs ⊢
      cases ok with
      | false => simp at hs
      | true =>
        simp only [if_true]
        exact vector_inv_of_some _ _ _ (by omega) (by omega)
  | shrink ok j =>
    simp only [applyCapOp, vector_shrink_to_fit] at hs ⊢
    cases he : v.elements with
    | none => simp [he] at hs
    | some buf =>
      simp only [he] at hs ⊢
      by_cases hz : v.size = 0
      · simpa only [if_pos hz] using vector_inv_empty
      · simp only [if_neg hz] at hs ⊢
        by_cases hc : v.size = v.capacity
        · simpa only [if_pos hc] using ⟨h1, h2⟩
        · simp only [if_neg hc] at hs ⊢
          cases ok with
          | false => simp at hs
          | true =>
            simp only [if_true]
            exact vector_inv_of_some _ _ _ (le_refl _) (by omega)

/-- Claim C1: starting from any vector satisfying the capacity invariant
(`capacity ≥ size` and `elements == NULL ⇔ capacity == 0`), every
sequence of `vector_resize` / `vector_reserve` / `vector_shrink_to_fit`
calls that all return `VECTOR_SUCCESS` preserves the invariant after
every call. -/
theorem capacity_invariant_preserved (v : Vector) (ops : List CapOp)
    (hv : vector_inv v)
    (hs : ∀ p ∈ runCapOps v ops, p.1 = VECTOR_SUCCESS) :
    ∀ p ∈ runCapOps v ops, vector_inv p.2 := by
  induction ops generalizing v with
  | nil => intro p hp; simp [runCapOps] at hp
  | cons op ops ih =>
    intro p hp
    simp only [runCapOps, List.mem_cons] at hp hs
    have hsucc : (applyCapOp v op).1 = VECTOR_SUCCESS := hs _ (Or.inl rfl)
    have hinv : vector_inv (applyCapOp v op).2 :=
      applyCapOp_preserves_inv v op hv hsucc
    rcases hp with rfl | hp
    · exact hinv
    · exact ih _ hinv (fun q hq => hs q (Or.inr hq)) p hp

/-- Witness for C1: run resize/reserve/shrink from the empty vector; all
three calls succeed and the invariant holds after each. -/
theorem capacity_invariant_preserved_witness :
    vector_inv c1StartVector ∧
    (∀ p ∈ runCapOps c1StartVector c1Ops, p.1 = VECTOR_SUCCESS) ∧
    (∀ p ∈ runCapOps c1StartVector c1Ops, vector_inv p.2) :=
  ⟨by decide, by with_unfolding_all decide,
    capacity_invariant_preserved c1StartVector c1Ops (by decide)
      (by with_unfolding_all decide)⟩

/-! ### C2: growth policy -/

/-- Counterexample to claim C2: growing a vector of capacity 16 to
requested size 17 yields capacity `2 * 17 = 34`, not
`current_capacity * GROWTH_FACTOR` rounded up to at least 17 (which is
`max 32 17 = 32`): `calculate_new_capacity` is applied to the requested
size, not to the current capacity. -/
theorem resize_growth_policy_counterexample :
    (vector_resize c2Vector 17 true 0).1 = VECTOR_SUCCESS ∧
    (vector_resize c2Vector 17 true 0).2.capacity = 34 ∧
    (vector_resize c2Vector 17 true 0).2.capacity ≠
      max (c2Vector.capacity * VECTOR_GROWTH_FACTOR) 17 := by
  refine ⟨by with_unfolding_all decide, by with_unfolding_all decide,
    by with_unfolding_all decide⟩

/-- Claim C2 (amended): when `vector_resize` grows a vector past its
current capacity, the new capacity is computed from the requested size
`n` alone: `MIN_CAPACITY = 16` when `n < MIN_CAPACITY`, otherwise
`n * GROWTH_FACTOR = 2 * n` (independent of the current capacity). -/
theorem resize_growth_policy (v : Vector) (n : Nat) (junk : ℚ)
    (h : v.capacity < n) :
    (vector_resize v n true junk).1 = VECTOR_SUCCESS ∧
    (vector_resize v n true junk).2.capacity =
      (if n < VECTOR_MIN_CAPACITY then VECTOR_MIN_CAPACITY
       else n * VECTOR_GROWTH_FACTOR) := by
  have hne : ¬ n ≤ v.capacity := by omega
  simp [vector_resize, hne, calculate_new_capacity]

/-- Witness for C2 (amended) at a vector of capacity 16 resized to 17. -/
theorem resize_growth_policy_witness :
    c2Vector.capacity < 17 ∧
    (vector_resize c2Vector 17 true 0).1 = VECTOR_SUCCESS ∧
    (vector_resize c2Vector 17 true 0).2.capacity =
      (if 17 < VECTOR_MIN_CAPACITY then VECTOR_MIN_CAPACITY
       else 17 * VECTOR_GROWTH_FACTOR) :=
  ⟨by decide, (resize_growth_policy c2Vector 17 0 (by decide)).1,
    (resize_growth_policy c2Vector 17 0 (by decide)).2⟩

/-! ### C3: create(0) and get -/

/-- Counterexample to claim C3: `vector_create(0)` does yield
`{elements = NULL, size = 0, capacity = 0}`, but `vector_get` at index 0
on that vector returns `VECTOR_ERROR_INIT` (the `vector_valid` check,
which requires a non-null buffer, fires before the bounds check), not
`VECTOR_ERROR_INDEX`. -/
theorem create_zero_get_counterexample :
    vector_create 0 true true =
      (VECTOR_SUCCESS, some { elements := none, size := 0, capacity := 0 }) ∧
    vector_get { elements := none, size := 0, capacity := 0 } 0 =
      (VECTOR_ERROR_INIT, none) ∧
    VECTOR_ERROR_INIT ≠ VECTOR_ERROR_INDEX := by
  refine ⟨by decide, by decide, by decide⟩

/-- Claim C3 (amended): `vector_create(0)` succeeds and yields a vector
with `size = 0`, `capacity = 0`, `elements = NULL`; `vector_get` on that
vector at index 0 returns `VECTOR_ERROR_INIT` (not `IndexOutOfRange`),
because `vector_valid` rejects the null buffer before any bounds
check. -/
theorem create_zero_get :
    (vector_create 0 true true).1 = VECTOR_SUCCESS ∧
    (vector_create 0 true true).2 =
      some { elements := none, size := 0, capacity := 0 } ∧
    (vector_get { elements := none, size := 0, capacity := 0 } 0).1 =
      VECTOR_ERROR_INIT := by
  refine ⟨by decide, by decide, by decide⟩

/-! ### C4: resize semantics on the element buffer -/

/-- Claim C4: `vector_resize` with `new_size ≤ capacity` changes only
`size` (the buffer is untouched, nothing is zeroed); with
`new_size > capacity` it grows the buffer (capacity strictly increases)
and zero-fills exactly `[old_size, new_size)` while preserving the first
`old_size` elements. -/
theorem resize_zero_fill (v : Vector) (n : Nat) (junk : ℚ) (buf : List ℚ)
    (hbe : v.elements = some buf) (hlen : buf.length = v.capacity)
    (hsz : v.size ≤ v.capacity) :
    (n ≤ v.capacity →
      vector_resize v n true junk = (VECTOR_SUCCESS, { v with size := n })) ∧
    (v.capacity < n →
      (vector_resize v n true junk).1 = VECTOR_SUCCESS ∧
      (vector_resize v n true junk).2.size = n ∧
      v.capacity < (vector_resize v n true junk).2.capacity ∧
      ∃ buf2, (vector_resize v n true junk).2.elements = some buf2 ∧
        (∀ i, i < v.size → buf2.getD i 0 = buf.getD i 0) ∧
        (∀ i, v.size ≤ i → i < n → buf2.getD i 0 = 0)) := by
  constructor
  · intro hle
    simp [vector_resize, hle]
  · intro hgt
    have hne : ¬ n ≤ v.capacity := by omega
    have hms : v.size < n := by omega
    have hnnc := (calculate_new_capacity_lower n).1
    have hlenr : (reallocBuf v.elements (calculate_new_capacity n) junk).length =
        calculate_new_capacity n := reallocBuf_length _ _ _
    simp only [vector_resize, if_neg hne, if_true, if_pos hms]
    refine ⟨trivial, trivial, ?_, ?_⟩
    · show v.capacity < calculate_new_capacity n
      omega
    · refine ⟨_, rfl, ?_, ?_⟩
      · intro i hi
        rw [memsetZeroRange_getD_lt _ _ _ _ hi (by rw [hlenr]; omega)]
        rw [reallocBuf_getD_lt _ _ _ _ (by simp [hbe]; omega) (by omega)]
        simp [hbe]
      · intro i hi1 hi2
        exact memsetZeroRange_getD_mid _ _ _ _ hi1 hi2 (by rw [hlenr]; omega)

/-- Witness for C4: shrink `[1,2]` to size 1 (buffer untouched), then
grow it to size 5 (prefix preserved, `[2,5)` zero-filled). -/
theorem resize_zero_fill_witness :
    (vector_resize c4Vector 1 true 0 = (VECTOR_SUCCESS, { c4Vector with size := 1 })) ∧
    ((vector_resize c4Vector 5 true 0).1 = VECTOR_SUCCESS ∧
      (vector_resize c4Vector 5 true 0).2.size = 5 ∧
      c4Vector.capacity < (vector_resize c4Vector 5 true 0).2.capacity ∧
      ∃ buf2, (vector_resize c4Vector 5 true 0).2.elements = some buf2 ∧
        (∀ i, i < c4Vector.size → buf2.getD i 0 = [(1 : ℚ), 2].getD i 0) ∧
        (∀ i, c4Vector.size ≤ i → i < 5 → buf2.getD i 0 = 0)) :=
  ⟨(resize_zero_fill c4Vector 1 0 [1, 2] rfl rfl (by decide)).1 (by decide),
   (resize_zero_fill c4Vector 5 0 [1, 2] rfl rfl (by decide)).2 (by decide)⟩

/-! ### C5: allocation failure leaves the vector untouched -/

/-- Claim C5: whenever the allocation inside `vector_resize`,
`vector_reserve`, `vector_shrink_to_fit` or `vector_init` is actually
reached and fails, the call returns `VECTOR_ERROR_MEM` and the vector
(size, capacity, buffer and all element values) is exactly as before. -/
theorem alloc_failure_preserves_state (v : Vector) (n c : Nat) (junk : ℚ) :
    (v.capacity < n → vector_resize v n false junk = (VECTOR_ERROR_MEM, v)) ∧
    (v.capacity < c → vector_reserve v c false junk = (VECTOR_ERROR_MEM, v)) ∧
    (∀ buf, v.elements = some buf → v.size ≠ 0 → v.size ≠ v.capacity →
      vector_shrink_to_fit v false junk = (VECTOR_ERROR_MEM, v)) ∧
    (0 < n → vector_init v n false = (VECTOR_ERROR_MEM, v)) := by
  refine ⟨?_, ?_, ?_, ?_⟩
  · intro h
    have hne : ¬ n ≤ v.capacity := by omega
    simp [vector_resize, hne]
  · intro h
    have hne : ¬ c ≤ v.capacity := by omega
    simp [vector_reserve, hne]
  · intro buf hbe hz hc; simp [vector_shrink_to_fit, hbe, hz, hc]
  · intro h; simp [vector_init, h]

/-- Witness for C5: all four failure paths on a concrete vector. -/
theorem alloc_failure_preserves_state_witness :
    (c5Vector.capacity < 5 ∧
      vector_resize c5Vector 5 false 0 = (VECTOR_ERROR_MEM, c5Vector)) ∧
    (c5Vector.capacity < 6 ∧
      vector_reserve c5Vector 6 false 0 = (VECTOR_ERROR_MEM, c5Vector)) ∧
    (c5Vector.elements = some [1, 2] ∧ c5Vector.size ≠ 0 ∧
      c5Vector.size ≠ c5Vector.capacity ∧
      vector_shrink_to_fit c5Vector false 0 = (VECTOR_ERROR_MEM, c5Vector)) ∧
    (0 < (5 : Nat) ∧ vector_init c5Vector 5 false = (VECTOR_ERROR_MEM, c5Vector)) :=
  ⟨⟨by decide, (alloc_failure_preserves_state c5Vector 5 6 0).1 (by decide)⟩,
   ⟨by decide, (alloc_failure_preserves_state c5Vector 5 6 0).2.1 (by decide)⟩,
   ⟨by decide, by decide, by decide,
     (alloc_failure_preserves_state c5Vector 5 6 0).2.2.1 [1, 2] (by decide)
       (by decide) (by decide)⟩,
   ⟨by decide, (alloc_failure_preserves_state c5Vector 5 6 0).2.2.2 (by decide)⟩⟩

/-! ### C6 and C10: elementwise division -/

theorem vector_div_loop_no_zero (aL bL : List ℚ) :
    ∀ (k i : Nat) (r : List ℚ), i + k ≤ r.length →
    (∀ j, j < k → bL.getD (i + j) 0 ≠ 0) →
    (vector_div_loop k i aL bL r).1 = VECTOR_SUCCESS ∧
    (vector_div_loop k i aL bL r).2.length = r.length ∧
    ∀ m, (vector_div_loop k i aL bL r).2.getD m 0 =
      if i ≤ m ∧ m < i + k then aL.getD m 0 / bL.getD m 0 else r.getD m 0 := by
  intro k
  induction k with
  | zero =>
    intro i r hlen hnz
    refine ⟨rfl, rfl, ?_⟩
    intro m
    rw [if_neg (by omega)]
    rfl
  | succ k ih =>
    intro i r hlen hnz
    have hb0 : bL.getD i 0 ≠ 0 := by simpa using hnz 0 (by omega)
    simp only [vector_div_loop, if_neg hb0]
    have hlen2 : (i + 1) + k ≤ (r.set i (aL.getD i 0 / bL.getD i 0)).length := by
      simp only [List.length_set]; omega
    have hnz2 : ∀ j, j < k → bL.getD ((i + 1) + j) 0 ≠ 0 := by
      intro j hj
      have h := hnz (j + 1) (by omega)
      have he : i + (j + 1) = (i + 1) + j := by omega
      rwa [he] at h
    obtain ⟨h1, h2, h3⟩ := ih (i + 1) _ hlen2 hnz2
    refine ⟨h1, by simpa using h2, ?_⟩
    intro m
    rw [h3 m]
    by_cases hm : i + 1 ≤ m ∧ m < i + 1 + k
    · rw [if_pos hm, if_pos (by omega)]
    · rw [if_neg hm]
      by_cases hmi : m = i
      · subst hmi
        rw [if_pos (by omega)]
        rw [List.getD_eq_getElem?_getD, List.getElem?_set_self (by omega),
          Option.getD_some]
      · rw [if_neg (by omega)]
        rw [List.getD_eq_getElem?_getD, List.getElem?_set_ne (by omega),
          ← List.getD_eq_getElem?_getD]

theorem vector_div_loop_zero_hit (aL bL : List ℚ) :
    ∀ (j k i : Nat) (r : List ℚ), i + k ≤ r.length → j < k →
    bL.getD (i + j) 0 = 0 →
    (∀ m, m < j → bL.getD (i + m) 0 ≠ 0) →
    (vector_div_loop k i aL bL r).1 = VECTOR_ERROR_MATH ∧
    (vector_div_loop k i aL bL r).2.length = r.length ∧
    ∀ m, (vector_div_loop k i aL bL r).2.getD m 0 =
      if i ≤ m ∧ m < i + j then aL.getD m 0 / bL.getD m 0 else r.getD m 0 := by
  intro j
  induction j with
  | zero =>
    intro k i r hlen hj hz hmin
    obtain ⟨kp, rfl⟩ : ∃ kp, k = kp + 1 := ⟨k - 1, by omega⟩
    simp only [vector_div_loop]
    rw [if_pos (by simpa using hz)]
    refine ⟨rfl, rfl, ?_⟩
    intro m
    rw [if_neg (by omega)]
  | succ j ih =>
    intro k i r hlen hj hz hmin
    obtain ⟨kp, rfl⟩ : ∃ kp, k = kp + 1 := ⟨k - 1, by omega⟩
    have hb0 : bL.getD i 0 ≠ 0 := by simpa using hmin 0 (by omega)
    simp only [vector_div_loop, if_neg hb0]
    have hz2 : bL.getD ((i + 1) + j) 0 = 0 := by
      have he : i + (j + 1) = (i + 1) + j := by omega
      rwa [he] at hz
    have hmin2 : ∀ m, m < j → bL.getD ((i + 1) + m) 0 ≠ 0 := by
      intro m hm
      have h := hmin (m + 1) (by omega)
      have he : i + (m + 1) = (i + 1) + m := by omega
      rwa [he] at h
    have hlen2 : (i + 1) + kp ≤ (r.set i (aL.getD i 0 / bL.getD i 0)).length := by
      simp only [List.length_set]; omega
    obtain ⟨h1, h2, h3⟩ := ih kp (i + 1) _ hlen2 (by omega) hz2 hmin2
    refine ⟨h1, by simpa using h2, ?_⟩
    intro m
    rw [h3 m]
    by_cases hm : i + 1 ≤ m ∧ m < i + 1 + j
    · rw [if_pos hm, if_pos (by omega)]
    · rw [if_neg hm]
      by_cases hmi : m = i
      · subst hmi
        rw [if_pos (by omega)]
        rw [List.getD_eq_getElem?_getD, List.getElem?_set_self (by omega),
          Option.getD_some]
      · rw [if_neg (by omega)]
        rw [List.getD_eq_getElem?_getD, List.getElem?_set_ne (by omega),
          ← List.getD_eq_getElem?_getD]

theorem vector_div_unfold (a b result : Vector) (aL bL rL : List ℚ)
    (ha : a.elements = some aL) (hb : b.elements = some bL)
    (hr : result.elements = some rL) (hab : a.size = b.size)
    (har : a.size = result.size) :
    vector_div a b result =
      ((vector_div_loop a.size 0 aL bL rL).1,
        { result with elements := some (vector_div_loop a.size 0 aL bL rL).2 }) := by
  unfold vector_div
  rw [if_neg (not_not_intro ⟨by simp [vector_valid, ha], by simp [vector_valid, hb],
    by simp [vector_valid, hr]⟩), if_neg (not_not_intro ⟨hab, har⟩)]
  rw [ha, hb, hr]
  rfl

/-- Claim C6: for valid equal-size operands, `vector_div` returns
`VECTOR_ERROR_MATH` when some element of `b` is exactly zero, and
otherwise returns success with `result[i] = a[i] / b[i]` for every
index. -/
theorem vector_div_domain (a b result : Vector) (aL bL rL : List ℚ)
    (ha : a.elements = some aL) (hb : b.elements = some bL)
    (hr : result.elements = some rL) (hab : a.size = b.size)
    (har : a.size = result.size) (hlen : a.size ≤ rL.length) :
    ((∃ i, i < a.size ∧ bL.getD i 0 = 0) →
      (vector_div a b result).1 = VECTOR_ERROR_MATH) ∧
    ((∀ i, i < a.size → bL.getD i 0 ≠ 0) →
      (vector_div a b result).1 = VECTOR_SUCCESS ∧
      ∀ i, i < a.size →
        ((vector_div a b result).2.elements.getD []).getD i 0 =
          aL.getD i 0 / bL.getD i 0) := by
  have hstep := vector_div_unfold a b result aL bL rL ha hb hr hab har
  constructor
  · rintro ⟨i0, hi0, hz0⟩
    have hex : ∃ m, bL.getD m 0 = 0 := ⟨i0, hz0⟩
    have hjz : bL.getD (Nat.find hex) 0 = 0 := Nat.find_spec hex
    have hjmin : ∀ m, m < Nat.find hex → bL.getD m 0 ≠ 0 :=
      fun m hm => Nat.find_min hex hm
    have hjlt : Nat.find hex < a.size := lt_of_le_of_lt (Nat.find_min' hex hz0) hi0
    have h := vector_div_loop_zero_hit aL bL (Nat.find hex) a.size 0 rL
      (by omega) hjlt (by simpa using hjz) (by intro m hm; simpa using hjmin m hm)
    rw [hstep]
    exact h.1
  · intro hnz
    have h := vector_div_loop_no_zero aL bL a.size 0 rL (by omega)
      (by intro m hm; exact (by simpa using hnz m (by omega)))
    rw [hstep]
    refine ⟨h.1, ?_⟩
    intro i hi
    show (vector_div_loop a.size 0 aL bL rL).2.getD i 0 = aL.getD i 0 / bL.getD i 0
    rw [h.2.2 i, if_pos (by omega)]

/-- Witness for C6: `[1,2] / [0,1]` fails with the math error;
`[1,2] / [1,1]` succeeds elementwise. -/
theorem vector_div_domain_witness :
    ((vector_div c6A c6BZero c6R).1 = VECTOR_ERROR_MATH) ∧
    ((vector_div c6A c6BOne c6R).1 = VECTOR_SUCCESS ∧
      ∀ i, i < c6A.size →
        ((vector_div c6A c6BOne c6R).2.elements.getD []).getD i 0 =
          [(1 : ℚ), 2].getD i 0 / [(1 : ℚ), 1].getD i 0) :=
  ⟨(vector_div_domain c6A c6BZero c6R [1, 2] [0, 1] [9, 9] rfl rfl rfl rfl rfl
      (by decide)).1 ⟨0, by decide, by decide⟩,
   (vector_div_domain c6A c6BOne c6R [1, 2] [1, 1] [9, 9] rfl rfl rfl rfl rfl
      (by decide)).2 (by decide)⟩

/-- Claim C10: with `j` the smallest index where `b[j] = 0`, `vector_div`
returns `VECTOR_ERROR_MATH` having already overwritten `result[i]` with
`a[i]/b[i]` for every `i < j`, while every `result[i]` with `i ≥ j`
retains its prior value. -/
theorem vector_div_partial_write (a b result : Vector) (aL bL rL : List ℚ)
    (ha : a.elements = some aL) (hb : b.elements = some bL)
    (hr : result.elements = some rL) (hab : a.size = b.size)
    (har : a.size = result.size) (hlen : a.size ≤ rL.length)
    (j : Nat) (hj : j < a.size) (hz : bL.getD j 0 = 0)
    (hmin : ∀ m, m < j → bL.getD m 0 ≠ 0) :
    (vector_div a b result).1 = VECTOR_ERROR_MATH ∧
    (∀ i, i < j →
      ((vector_div a b result).2.elements.getD []).getD i 0 =
        aL.getD i 0 / bL.getD i 0) ∧
    (∀ i, j ≤ i →
      ((vector_div a b result).2.elements.getD []).getD i 0 = rL.getD i 0) := by
  have hstep := vector_div_unfold a b result aL bL rL ha hb hr hab har
  have h := vector_div_loop_zero_hit aL bL j a.size 0 rL (by omega) hj
    (by simpa using hz) (by intro m hm; simpa using hmin m hm)
  rw [hstep]
  refine ⟨h.1, ?_, ?_⟩
  · intro i hi
    show (vector_div_loop a.size 0 aL bL rL).2.getD i 0 = aL.getD i 0 / bL.getD i 0
    rw [h.2.2 i, if_pos (by omega)]
  · intro i hi
    show (vector_div_loop a.size 0 aL bL rL).2.getD i 0 = rL.getD i 0
    rw [h.2.2 i, if_neg (by omega)]

/-- Witness for C10: `[1,2,3] / [2,0,9]` stops at index 1, having written
index 0 and left indices 1 and 2 of the prior `[7,7,7]` untouched. -/
theorem vector_div_partial_write_witness :
    (vector_div c10A c10B c10R).1 = VECTOR_ERROR_MATH ∧
    (∀ i, i < 1 →
      ((vector_div c10A c10B c10R).2.elements.getD []).getD i 0 =
        [(1 : ℚ), 2, 3].getD i 0 / [(2 : ℚ), 0, 9].getD i 0) ∧
    (∀ i, 1 ≤ i →
      ((vector_div c10A c10B c10R).2.elements.getD []).getD i 0 =
        [(7 : ℚ), 7, 7].getD i 0) :=
  vector_div_partial_write c10A c10B c10R [1, 2, 3] [2, 0, 9] [7, 7, 7]
    rfl rfl rfl rfl rfl (by decide) 1 (by decide) (by decide) (by decide)

/-! ### C7: cross product -/

theorem getD_set_self (l : List ℚ) (i : Nat) (x : ℚ) (h : i < l.length) :
    (l.set i x).getD i 0 = x := by
  rw [List.getD_eq_getElem?_getD, List.getElem?_set_self h, Option.getD_some]

theorem getD_set_ne (l : List ℚ) (i m : Nat) (x : ℚ) (h : i ≠ m) :
    (l.set i x).getD m 0 = l.getD m 0 := by
  rw [List.getD_eq_getElem?_getD, List.getElem?_set_ne h,
    ← List.getD_eq_getElem?_getD]

theorem vector_cross_unfold (a b result : Vector) (rL : List ℚ)
    (hva : vector_valid a = true) (hvb : vector_valid b = true)
    (hvr : vector_valid result = true) (hr : result.elements = some rL)
    (ha3 : a.size = 3) (hb3 : b.size = 3) (hr3 : result.size = 3) :
    vector_cross a b result =
      (VECTOR_SUCCESS,
        { result with elements := some (
            (((rL.set 0
                ((a.elements.getD []).getD 1 0 * (b.elements.getD []).getD 2 0 -
                 (a.elements.getD []).getD 2 0 * (b.elements.getD []).getD 1 0)).set 1
                ((a.elements.getD []).getD 2 0 * (b.elements.getD []).getD 0 0 -
                 (a.elements.getD []).getD 0 0 * (b.elements.getD []).getD 2 0)).set 2
                ((a.elements.getD []).getD 0 0 * (b.elements.getD []).getD 1 0 -
                 (a.elements.getD []).getD 1 0 * (b.elements.getD []).getD 0 0))) }) := by
  unfold vector_cross
  rw [if_neg (not_not_intro ⟨hva, hvb, hvr⟩),
    if_neg (not_not_intro ⟨ha3, hb3, hr3⟩)]
  rw [hr]
  rfl

/-- Claim C7: `vector_cross` returns the size error whenever any of the
three (valid) vectors does not have exactly 3 elements; on 3-element
operands it computes the standard right-handed cross product, and in
particular `vector_3d(1,0,0) × vector_3d(0,1,0) = (0,0,1)`. -/
theorem vector_cross_spec :
    (∀ a b result : Vector, vector_valid a = true → vector_valid b = true →
      vector_valid result = true →
      (¬(a.size = 3 ∧ b.size = 3 ∧ result.size = 3) →
        (vector_cross a b result).1 = VECTOR_ERROR_SIZE) ∧
      (∀ rL, result.elements = some rL → 3 ≤ rL.length →
        a.size = 3 → b.size = 3 → result.size = 3 →
        (vector_cross a b result).1 = VECTOR_SUCCESS ∧
        ∃ out, (vector_cross a b result).2.elements = some out ∧
          out.getD 0 0 =
            (a.elements.getD []).getD 1 0 * (b.elements.getD []).getD 2 0 -
              (a.elements.getD []).getD 2 0 * (b.elements.getD []).getD 1 0 ∧
          out.getD 1 0 =
            (a.elements.getD []).getD 2 0 * (b.elements.getD []).getD 0 0 -
              (a.elements.getD []).getD 0 0 * (b.elements.getD []).getD 2 0 ∧
          out.getD 2 0 =
            (a.elements.getD []).getD 0 0 * (b.elements.getD []).getD 1 0 -
              (a.elements.getD []).getD 1 0 * (b.elements.getD []).getD 0 0)) ∧
    ((vector_3d 1 0 0 true true).2 = some e100 ∧
      (vector_3d 0 1 0 true true).2 = some e010 ∧
      (vector_cross e100 e010 eCrossRes).1 = VECTOR_SUCCESS ∧
      (vector_cross e100 e010 eCrossRes).2.elements = some [0, 0, 1]) := by
  constructor
  · intro a b result hva hvb hvr
    constructor
    · intro hsz
      unfold vector_cross
      rw [if_neg (not_not_intro ⟨hva, hvb, hvr⟩), if_pos hsz]
    · intro rL hr hlen ha3 hb3 hr3
      rw [vector_cross_unfold a b result rL hva hvb hvr hr ha3 hb3 hr3]
      refine ⟨rfl, ?_⟩
      refine ⟨_, rfl, ?_, ?_, ?_⟩
      · rw [getD_set_ne _ _ _ _ (by omega), getD_set_ne _ _ _ _ (by omega),
          getD_set_self _ _ _ (by omega)]
      · rw [getD_set_ne _ _ _ _ (by omega),
          getD_set_self _ _ _ (by simpa using (by omega : 1 < rL.length))]
      · rw [getD_set_self _ _ _ (by simp; omega)]
  · refine ⟨by decide, by decide, by with_unfolding_all decide,
      by with_unfolding_all decide⟩

/-- Witness for C7: a size-2 first operand triggers the size error, and
the formula part is instantiated at `(1,0,0) × (0,1,0)`. -/
theorem vector_cross_spec_witness :
    ((vector_cross c6A e010 eCrossRes).1 = VECTOR_ERROR_SIZE) ∧
    ((vector_cross e100 e010 eCrossRes).1 = VECTOR_SUCCESS ∧
      ∃ out, (vector_cross e100 e010 eCrossRes).2.elements = some out ∧
        out.getD 0 0 =
          (e100.elements.getD []).getD 1 0 * (e010.elements.getD []).getD 2 0 -
            (e100.elements.getD []).getD 2 0 * (e010.elements.getD []).getD 1 0 ∧
        out.getD 1 0 =
          (e100.elements.getD []).getD 2 0 * (e010.elements.getD []).getD 0 0 -
            (e100.elements.getD []).getD 0 0 * (e010.elements.getD []).getD 2 0 ∧
        out.getD 2 0 =
          (e100.elements.getD []).getD 0 0 * (e010.elements.getD []).getD 1 0 -
            (e100.elements.getD []).getD 1 0 * (e010.elements.getD []).getD 0 0) :=
  ⟨(vector_cross_spec.1 c6A e010 eCrossRes rfl rfl rfl).1 (by decide),
   (vector_cross_spec.1 e100 e010 eCrossRes rfl rfl rfl).2 [0, 0, 0] rfl
     (by decide) rfl rfl rfl⟩

/-! ### C8: slerp clamping and lerp fallback -/

theorem slerp_core_acos_congr (acos1 acos2 sinQ : ℚ → ℚ) (a b : Vector) (t : ℚ)
    (result : Vector) (dotRaw : ℚ)
    (h : acos1 (max (-1) (min 1 dotRaw)) = acos2 (max (-1) (min 1 dotRaw))) :
    slerp_core acos1 sinQ a b t result dotRaw =
      slerp_core acos2 sinQ a b t result dotRaw := by
  unfold slerp_core
  rw [h]

theorem vector_dot_success (a b : Vector) (hva : vector_valid a = true)
    (hvb : vector_valid b = true) (hab : a.size = b.size) :
    (vector_dot a b).1 = VECTOR_SUCCESS := by
  unfold vector_dot
  rw [if_neg (not_not_intro ⟨hva, hvb⟩), if_neg (not_not_intro hab)]

/-- Claim C8: `vector_slerp` clamps the dot product into `[-1, 1]` before
applying `acos` — observationally, any two `acos` functions that agree on
`[-1, 1]` yield identical slerp results, so `acos` is never evaluated
outside the clamped range — and when the angle `acos(clamp(dot))` has
absolute value below the `1e-10` threshold the call returns exactly the
result of `vector_lerp(a, b, t, result)`. -/
theorem vector_slerp_clamp_and_fallback :
    (∀ (acos1 acos2 sinQ : ℚ → ℚ) (a b : Vector) (t : ℚ) (result : Vector),
      (∀ x, -1 ≤ x → x ≤ 1 → acos1 x = acos2 x) →
      vector_slerp acos1 sinQ a b t result =
        vector_slerp acos2 sinQ a b t result) ∧
    (∀ (acosQ sinQ : ℚ → ℚ) (a b : Vector) (t : ℚ) (result : Vector),
      vector_valid a = true → vector_valid b = true →
      vector_valid result = true → a.size = b.size → a.size = result.size →
      |acosQ (max (-1) (min 1 ((vector_dot a b).2.getD 0)))| < 1 / 10000000000 →
      vector_slerp acosQ sinQ a b t result = vector_lerp a b t result) := by
  constructor
  · intro acos1 acos2 sinQ a b t result hagree
    unfold vector_slerp
    by_cases h1 : ¬(vector_valid a ∧ vector_valid b ∧ vector_valid result)
    · rw [if_pos h1, if_pos h1]
    · rw [if_neg h1, if_neg h1]
      by_cases h2 : ¬(a.size = b.size ∧ a.size = result.size)
      · rw [if_pos h2, if_pos h2]
      · rw [if_neg h2, if_neg h2]
        rcases hd : vector_dot a b with ⟨e, val⟩
        cases e
        · show slerp_core acos1 sinQ a b t result (val.getD 0) =
            slerp_core acos2 sinQ a b t result (val.getD 0)
          exact slerp_core_acos_congr _ _ _ _ _ _ _ _
            (hagree _ (le_max_left _ _)
              (max_le (by norm_num) (min_le_left _ _)))
        all_goals rfl
  · intro acosQ sinQ a b t result hva hvb hvr hab har hsmall
    unfold vector_slerp
    rw [if_neg (not_not_intro ⟨hva, hvb, hvr⟩),
      if_neg (not_not_intro ⟨hab, har⟩)]
    have hd : (vector_dot a b).1 = VECTOR_SUCCESS := vector_dot_success a b hva hvb hab
    rcases hdd : vector_dot a b with ⟨e, val⟩
    rw [hdd] at hd hsmall
    simp only at hd
    subst hd
    show slerp_core acosQ sinQ a b t result (val.getD 0) = vector_lerp a b t result
    unfold slerp_core
    rw [if_pos (by simpa using hsmall)]

/-- Witness for C8: with a constant-zero `acos` the near-parallel branch
is taken and slerp degenerates to lerp; two `acos` models agreeing on
`[-1, 1]` give the same slerp. -/
theorem vector_slerp_clamp_and_fallback_witness :
    (vector_slerp (fun _ => 0) (fun x => x) c8V c8V 0 c8V =
      vector_slerp (fun x => x * 0) (fun x => x) c8V c8V 0 c8V) ∧
    (vector_slerp (fun _ => 0) (fun x => x) c8V c8V 0 c8V =
      vector_lerp c8V c8V 0 c8V) :=
  ⟨vector_slerp_clamp_and_fallback.1 (fun _ => 0) (fun x => x * 0) (fun x => x)
      c8V c8V 0 c8V (fun x _ _ => (mul_zero x).symm),
   vector_slerp_clamp_and_fallback.2 (fun _ => 0) (fun x => x) c8V c8V 0 c8V
      rfl rfl rfl rfl rfl (by with_unfolding_all decide)⟩

/-! ### C9: copy round-trip and the equals defect -/

theorem vector_equals_loop_success (k : Nat) :
    ∀ (i : Nat) (aL bL : List ℚ) (tol : ℚ),
    vector_equals_loop k i aL bL tol = VECTOR_SUCCESS := by
  induction k with
  | zero => intro i aL bL tol; rfl
  | succ k ih =>
    intro i aL bL tol
    unfold vector_equals_loop
    split
    · rfl
    · exact ih (i + 1) aL bL tol

theorem vector_equals_success (a b : Vector) (tol : ℚ)
    (hva : vector_valid a = true) (hvb : vector_valid b = true)
    (hab : a.size = b.size) :
    vector_equals a b tol = VECTOR_SUCCESS := by
  unfold vector_equals
  rw [if_neg (not_not_intro ⟨hva, hvb⟩), if_neg (not_not_intro hab)]
  exact vector_equals_loop_success _ _ _ _ _

/-- Counterexample to claim C9 as stated: the vector `c9Src` (non-null
buffer, `size = 0`, e.g. obtained by `vector_resize(v, 0)` on a size-3
vector) is valid, and `vector_copy` on it succeeds, but it produces a
dest whose buffer is NULL (`vector_init` with size 0 installs a NULL
buffer), so the subsequent `vector_equals(src, dest, 0)` returns
`VECTOR_ERROR_INIT`, not success. -/
theorem copy_equals_roundtrip_counterexample :
    vector_valid c9Src = true ∧
    (vector_copy c9Src { elements := none, size := 0, capacity := 0 } true).1 =
      VECTOR_SUCCESS ∧
    vector_equals c9Src
      (vector_copy c9Src { elements := none, size := 0, capacity := 0 } true).2 0 =
      VECTOR_ERROR_INIT ∧
    VECTOR_ERROR_INIT ≠ VECTOR_SUCCESS := by
  refine ⟨rfl, by decide, by decide, by decide⟩

/-- Claim C9 (amended): for every valid `src` with `size ≥ 1` (so that
the copied dest keeps a non-null buffer), `vector_copy(src, dest)`
followed by `vector_equals(src, dest, 0)` succeeds; and `vector_equals`
returns `VECTOR_SUCCESS` for every pair of valid equal-size vectors
regardless of how much their elements differ — it never reports the
comparison outcome through its return code. -/
theorem copy_equals_roundtrip (src dest : Vector)
    (hv : vector_valid src = true) (hsz : 0 < src.size) :
    ((vector_copy src dest true).1 = VECTOR_SUCCESS ∧
      vector_equals src (vector_copy src dest true).2 0 = VECTOR_SUCCESS) ∧
    (∀ (a b : Vector) (tol : ℚ), vector_valid a = true →
      vector_valid b = true → a.size = b.size →
      vector_equals a b tol = VECTOR_SUCCESS) := by
  have hinit : vector_init dest src.size true =
      (VECTOR_SUCCESS,
        { elements := some (List.replicate src.size 0),
          size := src.size, capacity := src.size }) := by
    unfold vector_init
    rw [if_pos hsz, if_pos rfl]
  have hcopy : vector_copy src dest true =
      (VECTOR_SUCCESS,
        { elements := some ((src.elements.getD []).take src.size),
          size := src.size, capacity := src.size }) := by
    unfold vector_copy
    rw [if_neg (not_not_intro hv), hinit]
  refine ⟨⟨by rw [hcopy], ?_⟩, ?_⟩
  · rw [hcopy]
    exact vector_equals_success src _ 0 hv rfl rfl
  · intro a b tol hva hvb hab
    exact vector_equals_success a b tol hva hvb hab

/-- Witness for C9 (amended): copy `[5,6]` and compare with tolerance 0;
also `vector_equals` on `[5,6]` vs `[100,-2]` with tolerance 0 still
returns success. -/
theorem copy_equals_roundtrip_witness :
    ((vector_copy c9A { elements := none, size := 0, capacity := 0 } true).1 =
        VECTOR_SUCCESS ∧
      vector_equals c9A
        (vector_copy c9A { elements := none, size := 0, capacity := 0 } true).2 0 =
        VECTOR_SUCCESS) ∧
    (vector_equals c9A c9B 0 = VECTOR_SUCCESS) :=
  ⟨(copy_equals_roundtrip c9A { elements := none, size := 0, capacity := 0 }
      rfl (by decide)).1,
   (copy_equals_roundtrip c9A { elements := none, size := 0, capacity := 0 }
      rfl (by decide)).2 c9A c9B 0 rfl rfl rfl⟩

end Malib
